import Mathlib

/-
Verification of the market-making core of the HyperLiquid repository:
the Risk Manager (position/portfolio ledger, limit gate, emergency stop,
src/src/core/order-manager.ts, RiskManager class) and the One-Sided
Quoting Strategy (src/unnamed/part_007, OneSidedQuotingStrategy class),
shallowly embedded in Lean 4.

decimal.js values are modelled as exact rationals (ℚ); the repository
configures decimal.js with ROUND_HALF_UP, and the only rounding the
verified claims exercise is MathUtils.roundToTickSize, which is modelled
explicitly.  Timestamps, timers, logging and event-emitter plumbing are
dropped; where a method's observable effect depends on an external call
succeeding or failing (order placement), the outcome is passed as an
explicit Boolean input.
-/

set_option linter.unusedVariables false

namespace HyperLiquid

/-- OrderSide from src/src/types: BUY | SELL.  A position's side uses the
same enum (BUY = long, SELL = short). -/
inductive OrderSide where
  | buy
  | sell
deriving DecidableEq, Repr

/-- Direction from src/src/types: LONG | SHORT | NEUTRAL. -/
inductive Direction where
  | long
  | short
  | neutral
deriving DecidableEq, Repr

/-- Position record (src/src/types), the fields the RiskManager reads and
writes.  `timestamp` is kept as an abstract ℕ. -/
structure Position where
  symbol : String
  side : OrderSide
  size : ℚ
  entryPrice : ℚ
  markPrice : ℚ
  unrealizedPnl : ℚ
  realizedPnl : ℚ
  fees : ℚ
  rebates : ℚ
  timestamp : ℕ
deriving DecidableEq, Repr

/-- Portfolio record (src/src/types).  The `positions` array the source
also stores is the ledger itself and lives in `RiskState.positions`. -/
structure Portfolio where
  totalValue : ℚ
  cash : ℚ
  unrealizedPnl : ℚ
  realizedPnl : ℚ
  totalFees : ℚ
  totalRebates : ℚ
  netPnl : ℚ
deriving DecidableEq, Repr

/-- RiskLimits as built by RiskManager.createRiskLimits. -/
structure RiskLimits where
  maxPositionSize : ℚ
  maxDailyLoss : ℚ
  maxDrawdownPercent : ℚ
  maxOpenPositions : ℕ
  positionTimeoutMinutes : ℚ
  emergencyStopLossPercent : ℚ
  concentrationLimit : ℚ
deriving DecidableEq, Repr

/-- The Order fields processOrderFill reads (id, symbol, side, fees,
rebates); price/amount/status are not consulted by the verified paths. -/
structure Order where
  id : String
  symbol : String
  side : OrderSide
  fees : ℚ
  rebates : ℚ
deriving DecidableEq, Repr

/-- The trade record processOrderFill builds before calling
updatePositionFromFill.  Its mutable `pnl` field is modelled as the ℚ
returned alongside the updated ledger. -/
structure Trade where
  timestamp : ℕ
  symbol : String
  side : OrderSide
  size : ℚ
  price : ℚ
  fees : ℚ
  rebates : ℚ
deriving DecidableEq, Repr

/-- The `positions : Map<string, Position>` ledger, as an association
list.  `lookupPos` is Map.get. -/
def lookupPos : List (String × Position) → String → Option Position
  | [], _ => none
  | (k, p) :: rest, s => if k = s then some p else lookupPos rest s

/-- Map.set: replace the binding if present, else append. -/
def setPos : List (String × Position) → String → Position → List (String × Position)
  | [], s, p => [(s, p)]
  | (k, q) :: rest, s, p =>
      if k = s then (k, p) :: rest else (k, q) :: setPos rest s p

/-- Map.delete. -/
def erasePos : List (String × Position) → String → List (String × Position)
  | [], _ => []
  | (k, q) :: rest, s => if k = s then rest else (k, q) :: erasePos rest s

/-- The mutable state of the RiskManager instance.  Of RiskMetrics only
the fields some claim reads are kept (dailyPnl, dailyLoss,
currentDrawdown, maxDrawdown); dailyTrades keeps each recorded trade's
pnl (timestamps are dropped: every entry counts as today's). -/
structure RiskState where
  limits : RiskLimits
  portfolio : Portfolio
  positions : List (String × Position)
  pendingOrders : List String
  dailyTrades : List ℚ
  dailyPnl : ℚ
  dailyLoss : ℚ
  currentDrawdown : ℚ
  maxDrawdown : ℚ
  emergencyStop : Bool
deriving Repr

/-- RiskManager.initializePortfolio: starting capital 10000. -/
def initializePortfolio : Portfolio :=
  { totalValue := 10000, cash := 10000, unrealizedPnl := 0, realizedPnl := 0,
    totalFees := 0, totalRebates := 0, netPnl := 0 }

/-- A freshly constructed RiskManager (constructor + initializePortfolio
+ initializeRiskMetrics). -/
def initialState (limits : RiskLimits) : RiskState :=
  { limits := limits, portfolio := initializePortfolio, positions := [],
    pendingOrders := [], dailyTrades := [], dailyPnl := 0, dailyLoss := 0,
    currentDrawdown := 0, maxDrawdown := 0, emergencyStop := false }

/-- RiskManager.getPosition. -/
def getPosition (st : RiskState) (symbol : String) : Option Position :=
  lookupPos st.positions symbol

/-- RiskManager.canTrade (order-manager.ts lines 481-535): emergency
stop, daily loss (on |dailyLoss|), drawdown, per-symbol concentration
(strict, in percent terms), and open-position count, checked in source
order; each check denies, otherwise allow. -/
def canTrade (st : RiskState) (symbol : String) : Bool :=
  if st.emergencyStop then false
  else if st.limits.maxDailyLoss ≤ |st.dailyLoss| then false
  else if st.limits.maxDrawdownPercent ≤ st.currentDrawdown then false
  else if (match lookupPos st.positions symbol with
      | some position =>
          decide (st.limits.concentrationLimit * 100
            < position.size * position.markPrice / st.portfolio.totalValue * 100)
      | none => false) then false
  else if st.limits.maxOpenPositions ≤ st.positions.length then false
  else true

/-- RiskManager.calculateRealizedPnl (lines 1027-1034): close `size`
(defaulting to the whole position) at `exitPrice`; price difference is
exit − entry for BUY (long), entry − exit for SELL (short). -/
def calculateRealizedPnl (position : Position) (exitPrice : ℚ)
    (size : Option ℚ) : ℚ :=
  let closeSize := size.getD position.size
  let priceDiff :=
    match position.side with
    | OrderSide.buy => exitPrice - position.entryPrice
    | OrderSide.sell => position.entryPrice - exitPrice
  priceDiff * closeSize

/-- RiskManager.updatePositionFromFill (lines 955-1022) acting on the
ledger alone; returns the updated ledger and the trade's realized pnl
(the amount the source both stores into trade.pnl and adds to
portfolio.realizedPnl; 0 on the open / same-side paths). -/
def updatePositionFromFill (positions : List (String × Position))
    (trade : Trade) : List (String × Position) × ℚ :=
  match lookupPos positions trade.symbol with
  | none =>
      let newPosition : Position :=
        { symbol := trade.symbol, side := trade.side, size := trade.size,
          entryPrice := trade.price, markPrice := trade.price,
          unrealizedPnl := 0, realizedPnl := 0,
          fees := trade.fees, rebates := trade.rebates,
          timestamp := trade.timestamp }
      (setPos positions trade.symbol newPosition, 0)
  | some existingPosition =>
      let updated : Position × ℚ :=
        if existingPosition.side = trade.side then
          let totalSize := existingPosition.size + trade.size
          let weightedPrice := (existingPosition.entryPrice * existingPosition.size
              + trade.price * trade.size) / totalSize
          ({ existingPosition with
              size := totalSize, entryPrice := weightedPrice,
              fees := existingPosition.fees + trade.fees,
              rebates := existingPosition.rebates + trade.rebates }, 0)
        else if existingPosition.size ≤ trade.size then
          let newSize := trade.size - existingPosition.size
          let realizedPnl := calculateRealizedPnl existingPosition trade.price none
          ({ existingPosition with
              side := trade.side, size := newSize, entryPrice := trade.price,
              realizedPnl := existingPosition.realizedPnl + realizedPnl,
              fees := existingPosition.fees + trade.fees,
              rebates := existingPosition.rebates + trade.rebates }, realizedPnl)
        else
          let realizedPnl :=
            calculateRealizedPnl existingPosition trade.price (some trade.size)
          ({ existingPosition with
              size := existingPosition.size - trade.size,
              realizedPnl := existingPosition.realizedPnl + realizedPnl,
              fees := existingPosition.fees + trade.fees,
              rebates := existingPosition.rebates + trade.rebates }, realizedPnl)
      if updated.1.size = 0 then
        (erasePos positions trade.symbol, updated.2)
      else
        (setPos positions trade.symbol updated.1, updated.2)

/-- updatePositionFromFill at the state level: new ledger, and
portfolio.realizedPnl accumulated, as in the source's opposite-side
branches (the returned ℚ is trade.pnl). -/
def applyUpdatePositionFromFill (st : RiskState) (trade : Trade) :
    RiskState × ℚ :=
  let r := updatePositionFromFill st.positions trade
  ({ st with
      positions := r.1
      portfolio :=
        { st.portfolio with realizedPnl := st.portfolio.realizedPnl + r.2 } },
    r.2)

/-- RiskManager.updateNetPnl (lines 754-759). -/
def updateNetPnl (p : Portfolio) : Portfolio :=
  { p with netPnl := p.realizedPnl + p.unrealizedPnl + p.totalRebates - p.totalFees }

/-- RiskManager.addRebateEarnings (lines 676-685): rebates accrue to
totalRebates and to cash, then net pnl is recomputed. -/
def addRebateEarnings (st : RiskState) (rebateAmount : ℚ) : RiskState :=
  let p :=
    { st.portfolio with
        totalRebates := st.portfolio.totalRebates + rebateAmount
        cash := st.portfolio.cash + rebateAmount }
  { st with portfolio := updateNetPnl p }

/-- RiskManager.getHistoricalPeak (lines 1050-1055): the source does NOT
track a running peak; it returns max(current total value, initial
capital 10000). -/
def getHistoricalPeak (st : RiskState) : ℚ :=
  max st.portfolio.totalValue 10000

/-- RiskManager.updateRiskMetrics (lines 764-813), restricted to the
fields a verified claim reads: daily pnl/loss from the recorded trades,
current drawdown from getHistoricalPeak, max-drawdown high-water mark.
(Total exposure, the drawdown history ring and the win/sharpe statistics
touch no claim and are omitted.) -/
def updateRiskMetrics (st : RiskState) : RiskState :=
  let dailyPnl := st.dailyTrades.sum
  let dailyLoss := if dailyPnl < 0 then -dailyPnl else 0
  let peakCapital := getHistoricalPeak st
  let currentCapital := st.portfolio.totalValue
  let currentDrawdown :=
    if currentCapital < peakCapital then
      (peakCapital - currentCapital) / peakCapital * 100
    else 0
  let maxDrawdown :=
    if st.maxDrawdown < currentDrawdown then currentDrawdown else st.maxDrawdown
  { st with
      dailyPnl := dailyPnl
      dailyLoss := dailyLoss
      currentDrawdown := currentDrawdown
      maxDrawdown := maxDrawdown }

/-- RiskManager.removePendingOrder (lines 619-630): only recomputes the
metrics when the order was tracked. -/
def removePendingOrder (st : RiskState) (orderId : String) : RiskState :=
  if orderId ∈ st.pendingOrders then
    updateRiskMetrics { st with pendingOrders := st.pendingOrders.erase orderId }
  else st

/-- The trade record processOrderFill builds (lines 636-645). -/
def mkTrade (order : Order) (fillPrice fillSize : ℚ) (now : ℕ) : Trade :=
  { timestamp := now, symbol := order.symbol, side := order.side,
    size := fillSize, price := fillPrice,
    fees := order.fees, rebates := order.rebates }

/-- RiskManager.processOrderFill (lines 635-671): build the trade record,
update the position ledger (accumulating realized pnl into the
portfolio), record the trade's pnl in dailyTrades, credit the order's
rebates, drop the pending order.  Note: updatePortfolio is NOT called on
this path. -/
def processOrderFill (st : RiskState) (order : Order)
    (fillPrice fillSize : ℚ) (now : ℕ) : RiskState :=
  let r := applyUpdatePositionFromFill st (mkTrade order fillPrice fillSize now)
  let st2 := { r.1 with dailyTrades := r.1.dailyTrades ++ [r.2] }
  let st3 := addRebateEarnings st2 order.rebates
  removePendingOrder st3 order.id

/-- RiskManager.updatePortfolio (lines 733-749): total value = cash +
Σ position notional + Σ unrealized pnl, then net pnl. -/
def updatePortfolio (st : RiskState) : RiskState :=
  let totalPositionValue :=
    (st.positions.map (fun e => e.2.size * e.2.markPrice)).sum
  let totalUnrealizedPnl :=
    (st.positions.map (fun e => e.2.unrealizedPnl)).sum
  let p :=
    { st.portfolio with
        unrealizedPnl := totalUnrealizedPnl
        totalValue := st.portfolio.cash + totalPositionValue + totalUnrealizedPnl }
  { st with portfolio := updateNetPnl p }

/-- RiskManager.updatePosition (lines 572-598): store the position,
recompute the portfolio, recompute the metrics.  (The per-symbol timeout
timer and the checkRiskLimits alert pass touch no verified field.) -/
def updatePosition (st : RiskState) (position : Position) : RiskState :=
  updateRiskMetrics (updatePortfolio
    { st with positions := setPos st.positions position.symbol position })

/-- RiskAlert levels. -/
inductive AlertLevel where
  | warning
  | critical
  | emergency
deriving DecidableEq, Repr

/-- RiskManager.triggerEmergencyStop (lines 1130-1144): a one-way,
idempotent latch.  The Bool is whether an `emergencyStop` event was
emitted (the early return on an already-set latch emits nothing). -/
def triggerEmergencyStop (st : RiskState) : RiskState × Bool :=
  if st.emergencyStop then (st, false)
  else ({ st with emergencyStop := true }, true)

/-- RiskManager.emitRiskAlert (lines 1109-1125): the riskAlert event is
always emitted; an EMERGENCY-level alert additionally invokes
triggerEmergencyStop.  The Bool is whether an `emergencyStop` event was
emitted. -/
def emitRiskAlert (st : RiskState) (level : AlertLevel) : RiskState × Bool :=
  if level = AlertLevel.emergency then triggerEmergencyStop st
  else (st, false)

/-- RiskManager.resetEmergencyStop (lines 1149-1154). -/
def resetEmergencyStop (st : RiskState) : RiskState :=
  { st with emergencyStop := false }

/-- RiskManager.getMaxPositionSize (lines 540-567): tightest of the
absolute limit minus current size, the concentration cap at the
hardcoded estimated price 2000, and (when binding) the daily-loss cap;
floored at 0. -/
def getMaxPositionSize (st : RiskState) (symbol : String)
    (requestedSize : ℚ) : ℚ :=
  let currentSize := (lookupPos st.positions symbol).elim 0 Position.size
  let maxSize := st.limits.maxPositionSize - currentSize
  let maxConcentrationValue := st.portfolio.totalValue * st.limits.concentrationLimit
  let estimatedPrice : ℚ := 2000
  let maxConcentrationSize := maxConcentrationValue / estimatedPrice
  let maxSize2 := min maxSize maxConcentrationSize
  let potentialLoss := requestedSize * estimatedPrice * (1 / 10)
  let remainingDailyLoss := st.limits.maxDailyLoss - |st.dailyLoss|
  let maxSize3 :=
    if remainingDailyLoss < potentialLoss then
      min maxSize2 (remainingDailyLoss / (estimatedPrice * (1 / 10)))
    else maxSize2
  max maxSize3 0

/-- MarketData fields the strategy reads. -/
structure MarketData where
  symbol : String
  bid : ℚ
  ask : ℚ
  spread : ℚ
  midPrice : ℚ
deriving DecidableEq, Repr

/-- One order-book level (the strategy only reads the price of the top
level). -/
structure BookLevel where
  price : ℚ
  size : ℚ
deriving DecidableEq, Repr

structure OrderBook where
  symbol : String
  bids : List BookLevel
  asks : List BookLevel
deriving DecidableEq, Repr

/-- Signal fields the strategy reads. -/
structure Signal where
  symbol : String
  direction : Direction
  confidence : ℚ
  strength : ℚ
deriving DecidableEq, Repr

/-- The OneSidedQuotingConfig fields the verified paths read. -/
structure OneSidedQuotingConfig where
  symbols : List String
  maxPositionSize : ℚ
  baseOrderSize : ℚ
  confidenceThreshold : ℚ
  aggressivenessFactor : ℚ
  maxSpreadPercent : ℚ
deriving Repr

/-- decimal.js clampedTo(lo, hi). -/
def clampedTo (x lo hi : ℚ) : ℚ :=
  min (max x lo) hi

/-- decimal.js round() under the repository's configured ROUND_HALF_UP
(src/src/utils/validation.ts Decimal.config): nearest integer, ties away
from zero. -/
def decimalRound (q : ℚ) : ℤ :=
  if 0 ≤ q then Int.floor (q + 1 / 2) else -Int.floor (-q + 1 / 2)

/-- MathUtils.roundToTickSize (src/src/utils/validation.ts lines
253-255): price.dividedBy(tickSize).round().multipliedBy(tickSize). -/
def roundToTickSize (price tickSize : ℚ) : ℚ :=
  (decimalRound (price / tickSize) : ℚ) * tickSize

/-- OneSidedQuotingStrategy.getTickSize (part_007 lines 568-578):
hardcoded table with default 0.01. -/
def getTickSize (symbol : String) : ℚ :=
  if symbol = "ETH" then 1 / 100
  else if symbol = "BTC" then 1 / 100
  else if symbol = "SOL" then 1 / 1000
  else 1 / 100

/-- The book-top bid the strategy uses, falling back to the market-data
bid on an empty book (part_007 lines 241 and 318). -/
def bestBidOf (orderBook : OrderBook) (marketData : MarketData) : ℚ :=
  match orderBook.bids with
  | l :: _ => l.price
  | [] => marketData.bid

/-- The book-top ask, falling back to the market-data ask. -/
def bestAskOf (orderBook : OrderBook) (marketData : MarketData) : ℚ :=
  match orderBook.asks with
  | l :: _ => l.price
  | [] => marketData.ask

/-- OneSidedQuotingStrategy.calculateQuotePrice (part_007 lines
299-339).  The source also receives a referencePrice argument it never
reads (it recomputes the best bid/ask from the book); that argument is
omitted here. -/
def calculateQuotePrice (cfg : OneSidedQuotingConfig) (signal : Signal)
    (marketData : MarketData) (orderBook : OrderBook)
    (side : OrderSide) : ℚ :=
  let spread := marketData.ask - marketData.bid
  let midPrice := marketData.midPrice
  let baseAggressiveness := cfg.aggressivenessFactor
  let signalAggressiveness := signal.confidence * (1 / 2)
  let totalAggressiveness :=
    clampedTo (baseAggressiveness + signalAggressiveness) 0 1
  let quotePrice :=
    match side with
    | OrderSide.buy =>
        let aggressiveOffset := spread * totalAggressiveness * (1 / 2)
        min (bestBidOf orderBook marketData - aggressiveOffset)
          (midPrice - spread * (1 / 10))
    | OrderSide.sell =>
        let aggressiveOffset := spread * totalAggressiveness * (1 / 2)
        max (bestAskOf orderBook marketData + aggressiveOffset)
          (midPrice + spread * (1 / 10))
  roundToTickSize quotePrice (getTickSize signal.symbol)

/-- OneSidedQuotingStrategy.calculateQuoteSize (part_007 lines 344-368):
base size scaled by clamped confidence and strength multipliers, capped
by the remaining room to maxPositionSize, by the risk manager's
getMaxPositionSize, and clamped to [0, maxPositionSize]. -/
def calculateQuoteSize (cfg : OneSidedQuotingConfig) (risk : RiskState)
    (stratPositions : String → Option Position) (signal : Signal)
    (symbol : String) : ℚ :=
  let confidenceMultiplier := clampedTo signal.confidence (1 / 2) 1
  let strengthMultiplier := clampedTo (signal.strength + 1 / 2) (1 / 2) (3 / 2)
  let size := cfg.baseOrderSize * confidenceMultiplier * strengthMultiplier
  let size2 :=
    match stratPositions symbol with
    | some currentPosition =>
        min size (cfg.maxPositionSize - |currentPosition.size|)
    | none => size
  let riskAdjustedSize := getMaxPositionSize risk symbol size2
  clampedTo (min size2 riskAdjustedSize) 0 cfg.maxPositionSize

inductive DecisionAction where
  | buy
  | sell
  | hold
deriving DecidableEq, Repr

inductive RiskLevel where
  | low
  | medium
  | high
deriving DecidableEq, Repr

/-- TradingDecision fields the verified paths read (signal, orderType
and the free-text reasoning are dropped). -/
structure TradingDecision where
  action : DecisionAction
  size : ℚ
  price : ℚ
  riskLevel : RiskLevel
deriving DecidableEq, Repr

/-- OneSidedQuotingStrategy.validateTradingDecision (part_007 lines
415-456): minimum size 1, positive price, spread within
maxSpreadPercent of mid, and the risk gate. -/
def validateTradingDecision (cfg : OneSidedQuotingConfig)
    (risk : RiskState) (marketDataMap : String → Option MarketData)
    (symbol : String) (size price : ℚ) : Bool :=
  if size < 1 then false
  else if price ≤ 0 then false
  else if (match marketDataMap symbol with
      | some marketData =>
          decide (marketData.midPrice * (cfg.maxSpreadPercent / 100)
            < marketData.ask - marketData.bid)
      | none => false) then false
  else canTrade risk symbol

/-- OneSidedQuotingStrategy.assessRiskLevel (part_007 lines 461-484):
advisory score from confidence, size ratio and spread width. -/
def assessRiskLevel (cfg : OneSidedQuotingConfig)
    (marketDataMap : String → Option MarketData) (signal : Signal)
    (size : ℚ) : RiskLevel :=
  let r1 : ℕ := if signal.confidence < 7 / 10 then 1 else 0
  let r2 := if signal.confidence < 1 / 2 then r1 + 1 else r1
  let sizeRa := size / cfg.maxPositionSize
  let r3 := if (1 / 2 : ℚ) < sizeRa then r2 + 1 else r2
  let r4 := if (4 / 5 : ℚ) < sizeRa then r3 + 1 else r3
  let r5 :=
    match marketDataMap signal.symbol with
    | some marketData =>
        let spreadPercent := marketData.spread / marketData.midPrice * 100
        let a := if (1 / 2 : ℚ) < spreadPercent then r4 + 1 else r4
        if (1 : ℚ) < spreadPercent then a + 1 else a
    | none => r4
  if r5 ≤ 1 then RiskLevel.low
  else if r5 ≤ 3 then RiskLevel.medium
  else RiskLevel.high

/-- OneSidedQuotingStrategy.generateTradingDecision (part_007 lines
226-294): NEUTRAL is HOLD; otherwise compute price and size, HOLD when
validation fails, else the sided action. -/
def generateTradingDecision (cfg : OneSidedQuotingConfig)
    (risk : RiskState) (stratPositions : String → Option Position)
    (marketDataMap : String → Option MarketData) (signal : Signal)
    (marketData : MarketData) (orderBook : OrderBook) : TradingDecision :=
  match signal.direction with
  | Direction.neutral =>
      { action := DecisionAction.hold, size := 0, price := 0,
        riskLevel := RiskLevel.low }
  | dir =>
      let side := if dir = Direction.long then OrderSide.buy else OrderSide.sell
      let quotePrice := calculateQuotePrice cfg signal marketData orderBook side
      let quoteSize :=
        calculateQuoteSize cfg risk stratPositions signal signal.symbol
      if validateTradingDecision cfg risk marketDataMap signal.symbol
          quoteSize quotePrice then
        { action := if dir = Direction.long then DecisionAction.buy
            else DecisionAction.sell,
          size := quoteSize, price := quotePrice,
          riskLevel := assessRiskLevel cfg marketDataMap signal quoteSize }
      else
        { action := DecisionAction.hold, size := 0, price := 0,
          riskLevel := RiskLevel.high }

/-- The OneSidedQuotingStrategy state the verified claims observe:
per-symbol market data / book / latest signal snapshots, the per-symbol
active-order id lists, and the strategy's own position mirror.
(lastQuoteTime and the isRunning flag gate only timing, which is not
modelled.) -/
structure StratState where
  marketData : String → Option MarketData
  orderBooks : String → Option OrderBook
  latestSignal : String → Option Signal
  activeOrders : String → List String
  positions : String → Option Position

/-- OneSidedQuotingStrategy.cancelSymbolOrders (part_007 lines 523-536):
a cancel request is issued per active order, and the symbol's active
list is then cleared unconditionally — also when a cancel call failed
(the catch only logs), i.e. cancellation is assumed. -/
def cancelSymbolOrders (st : StratState) (symbol : String) : StratState :=
  { st with activeOrders := fun s =>
      if s = symbol then [] else st.activeOrders s }

/-- OneSidedQuotingStrategy.placeQuote (part_007 lines 373-410):
on placement success the order is appended to the symbol's active list;
on a placeOrder failure nothing is tracked.  `placeOk` is the outcome of
the exchange call. -/
def placeQuote (st : StratState) (symbol : String) (newOrderId : String)
    (placeOk : Bool) : StratState :=
  if placeOk then
    { st with activeOrders := fun s =>
        if s = symbol then st.activeOrders s ++ [newOrderId]
        else st.activeOrders s }
  else st

/-- OneSidedQuotingStrategy.updateQuotes (part_007 lines 176-221): bail
out when signal, market data or book is missing, or when the risk gate
denies (note: in that case the existing orders are NOT cancelled);
otherwise cancel the symbol's orders first, then place a fresh quote
unless the decision is HOLD. -/
def updateQuotes (cfg : OneSidedQuotingConfig) (risk : RiskState)
    (st : StratState) (symbol : String) (newOrderId : String)
    (placeOk : Bool) : StratState :=
  match st.latestSignal symbol, st.marketData symbol, st.orderBooks symbol with
  | some signal, some marketData, some orderBook =>
      if canTrade risk symbol then
        let st1 := cancelSymbolOrders st symbol
        let decision := generateTradingDecision cfg risk st1.positions
          st1.marketData signal marketData orderBook
        if decision.action = DecisionAction.hold then st1
        else placeQuote st1 symbol newOrderId placeOk
      else st
  | _, _, _ => st

/-- One requote trigger: the risk-manager state it observes, the symbol,
the id the exchange would assign, and whether placement succeeds. -/
structure QuoteEvent where
  risk : RiskState
  symbol : String
  newOrderId : String
  placeOk : Bool

/-- A sequence of updateQuotes cycles (market-data ticks, signal events
and the periodic sweep all funnel into updateQuotes). -/
def runQuoteUpdates (cfg : OneSidedQuotingConfig) (st : StratState) :
    List QuoteEvent → StratState
  | [] => st
  | e :: es =>
      runQuoteUpdates cfg (updateQuotes cfg e.risk st e.symbol e.newOrderId e.placeOk) es

/-- One processOrderFill call's arguments. -/
structure Fill where
  order : Order
  fillPrice : ℚ
  fillSize : ℚ
  time : ℕ
deriving DecidableEq, Repr

/-- A finite sequence of processOrderFill calls. -/
def applyFills (st : RiskState) : List Fill → RiskState
  | [] => st
  | f :: fs =>
      applyFills (processOrderFill st f.order f.fillPrice f.fillSize f.time) fs

/-! ### Specification-side definitions

These follow the wording of the specification, to be compared with the
source-derived definitions above. -/

/-- The spec's realized-P&L formula: (exit − entry) × closedSize for a
long (BUY) position, (entry − exit) × closedSize for a short (SELL). -/
def specRealizedPnl (side : OrderSide) (entryPrice exitPrice closedSize : ℚ) : ℚ :=
  match side with
  | OrderSide.buy => (exitPrice - entryPrice) * closedSize
  | OrderSide.sell => (entryPrice - exitPrice) * closedSize

/-- The spec's trading-denial condition for canTrade: emergency stop,
dailyLoss ≥ maxDailyLoss, drawdown ≥ maxDrawdownPercent, the symbol's
position notional as a fraction of portfolio value strictly above the
concentration limit, or open positions ≥ maxOpenPositions. -/
def specTradeDenied (st : RiskState) (symbol : String) : Prop :=
  st.emergencyStop = true ∨
  st.limits.maxDailyLoss ≤ st.dailyLoss ∨
  st.limits.maxDrawdownPercent ≤ st.currentDrawdown ∨
  (∃ p, getPosition st symbol = some p ∧
    st.limits.concentrationLimit
      < p.size * p.markPrice / st.portfolio.totalValue) ∨
  st.limits.maxOpenPositions ≤ st.positions.length

/-- Every position in a ledger has strictly positive size (no negative
and no zero-size entries). -/
def goodLedger (l : List (String × Position)) : Prop :=
  ∀ e ∈ l, 0 < e.2.size

/-- Σ position notional over the ledger, as updatePortfolio computes it. -/
def positionsNotional (l : List (String × Position)) : ℚ :=
  (l.map (fun e => e.2.size * e.2.markPrice)).sum

/-- Σ unrealized pnl over the ledger, as updatePortfolio computes it. -/
def positionsUnrealized (l : List (String × Position)) : ℚ :=
  (l.map (fun e => e.2.unrealizedPnl)).sum

/-- The spec's portfolio identities: totalValue = cash + Σ notional +
Σ unrealized, and netPnl = realized + unrealized + rebates − fees. -/
def portfolioInvariant (st : RiskState) : Prop :=
  st.portfolio.totalValue
      = st.portfolio.cash + positionsNotional st.positions
        + positionsUnrealized st.positions ∧
  st.portfolio.netPnl
      = st.portfolio.realizedPnl + st.portfolio.unrealizedPnl
        + st.portfolio.totalRebates - st.portfolio.totalFees

/-- The spec's running historical peak: the maximum portfolio value
observed over the whole history. -/
def specRunningPeak (observed : List ℚ) : ℚ :=
  observed.foldl max 0

/-- The spec's drawdown: (peak − current)/peak × 100 with a floor of 0,
peak being the running historical peak. -/
def specCurrentDrawdown (observed : List ℚ) (current : ℚ) : ℚ :=
  max ((specRunningPeak observed - current) / specRunningPeak observed * 100) 0

/-- The spec's BUY quote price: offset = spread × min(aggressiveness +
confidence × 0.5, 1) × 0.5 off the best bid, clamped to at most
mid − 0.1 × spread, rounded half-up to the tick. -/
def specQuotePriceBuy (aggr confidence bestBid spread midPrice tick : ℚ) : ℚ :=
  let offset := spread * min (aggr + confidence * (1 / 2)) 1 * (1 / 2)
  roundToTickSize (min (bestBid - offset) (midPrice - spread * (1 / 10))) tick

/-- The spec's SELL quote price: best ask plus the offset, clamped to at
least mid + 0.1 × spread, rounded to the tick. -/
def specQuotePriceSell (aggr confidence bestAsk spread midPrice tick : ℚ) : ℚ :=
  let offset := spread * min (aggr + confidence * (1 / 2)) 1 * (1 / 2)
  roundToTickSize (max (bestAsk + offset) (midPrice + spread * (1 / 10))) tick

/-- At most one active order per symbol in the strategy's active-order
set. -/
def oneOrderPerSymbol (st : StratState) : Prop :=
  ∀ s, (st.activeOrders s).length ≤ 1

/-! ### Concrete fixtures for the spec's scenarios -/

/-- The risk limits used by the repository's own unit tests
(tests/unit/risk-manager.test.ts): maxDailyLoss 500, maxDrawdown 5%,
concentration 30%, max 5 open positions. -/
def limits0 : RiskLimits :=
  { maxPositionSize := 1000, maxDailyLoss := 500, maxDrawdownPercent := 5,
    maxOpenPositions := 5, positionTimeoutMinutes := 30,
    emergencyStopLossPercent := 10, concentrationLimit := 3 / 10 }

def buyOrder : Order :=
  { id := "o1", symbol := "ETH", side := OrderSide.buy, fees := 0, rebates := 0 }

def sellOrder : Order :=
  { id := "o2", symbol := "ETH", side := OrderSide.sell, fees := 0, rebates := 0 }

/-- Scenario A: open LONG 1 ETH @2000, then a SELL fill of 1.5 ETH at
`fillPrice`. -/
def scenarioA (fillPrice : ℚ) : RiskState :=
  processOrderFill (processOrderFill (initialState limits0) buyOrder 2000 1 0)
    sellOrder fillPrice (3 / 2) 1

/-- Scenario B: accumulated daily loss 500 against maxDailyLoss 500. -/
def scenarioB : RiskState :=
  { initialState limits0 with dailyLoss := 500 }

/-- An ETH position with notional 3500 at the default portfolio value
10000. -/
def ethPos3500 : Position :=
  { symbol := "ETH", side := OrderSide.buy, size := 1, entryPrice := 3500,
    markPrice := 3500, unrealizedPnl := 0, realizedPnl := 0, fees := 0,
    rebates := 0, timestamp := 0 }

/-- Scenario D: concentration limit 30%, portfolio value 10000, ETH
notional 3500. -/
def scenarioD : RiskState :=
  { initialState limits0 with positions := [("ETH", ethPos3500)] }

/-- A single fill processed from the initial state (the C8
counterexample state: the portfolio is not recomputed on this path). -/
def stFill : RiskState :=
  processOrderFill (initialState limits0) buyOrder 2000 1 0

/-- A state whose portfolio rose to 12000 and fell back to 11000: under
a running historical peak its drawdown would be (12000−11000)/12000. -/
def st11000 : RiskState :=
  { initialState limits0 with
      portfolio := { initializePortfolio with totalValue := 11000 } }

/-- A risk state with the emergency latch set. -/
def stStop : RiskState :=
  { initialState limits0 with emergencyStop := true }

/-- Scenario E configuration: aggressiveness 0.4, and a signal of
confidence 0 so the total aggressiveness is 0.4. -/
def cfgE : OneSidedQuotingConfig :=
  { symbols := ["ETH"], maxPositionSize := 10, baseOrderSize := 1,
    confidenceThreshold := 1 / 2, aggressivenessFactor := 2 / 5,
    maxSpreadPercent := 1 }

def sigE : Signal :=
  { symbol := "ETH", direction := Direction.long, confidence := 0,
    strength := 1 / 2 }

/-- Scenario E market: best bid 1999.5, best ask 2000.5, spread 1, mid
2000. -/
def mdE : MarketData :=
  { symbol := "ETH", bid := 3999 / 2, ask := 4001 / 2, spread := 1,
    midPrice := 2000 }

def obE : OrderBook :=
  { symbol := "ETH", bids := [{ price := 3999 / 2, size := 1 }],
    asks := [{ price := 4001 / 2, size := 1 }] }

/-- A NEUTRAL signal for ETH. -/
def sigNeutral : Signal :=
  { symbol := "ETH", direction := Direction.neutral, confidence := 1,
    strength := 1 / 2 }

/-- A strategy state QUOTING on ETH: one resting order q1, with signal,
market data and book snapshots present. -/
def stQuoting (signal : Signal) : StratState :=
  { marketData := fun s => if s = "ETH" then some mdE else none,
    orderBooks := fun s => if s = "ETH" then some obE else none,
    latestSignal := fun s => if s = "ETH" then some signal else none,
    activeOrders := fun s => if s = "ETH" then ["q1"] else [],
    positions := fun _ => none }

/-- An IDLE strategy state with no data and no orders. -/
def stIdle : StratState :=
  { marketData := fun _ => none, orderBooks := fun _ => none,
    latestSignal := fun _ => none, activeOrders := fun _ => [],
    positions := fun _ => none }

/-- The Scenario-A reversal position: SHORT 0.5 ETH at the fill price,
with the realized P&L of the closed long accumulated. -/
def scenarioAPos (fillPrice : ℚ) : Position :=
  { symbol := "ETH", side := OrderSide.sell, size := 1 / 2,
    entryPrice := fillPrice, markPrice := 2000, unrealizedPnl := 0,
    realizedPnl := (fillPrice - 2000) * 1, fees := 0, rebates := 0,
    timestamp := 0 }

/-- A single opening fill, for the C3 witness. -/
def fillBuy1 : Fill :=
  { order := buyOrder, fillPrice := 2000, fillSize := 1, time := 0 }

/-- The position fillBuy1 opens. -/
def fillBuy1Pos : Position :=
  { symbol := "ETH", side := OrderSide.buy, size := 1, entryPrice := 2000,
    markPrice := 2000, unrealizedPnl := 0, realizedPnl := 0, fees := 0,
    rebates := 0, timestamp := 0 }

/-! ### Ledger lemmas -/

theorem lookupPos_setPos_self (l : List (String × Position)) (s : String)
    (p : Position) : lookupPos (setPos l s p) s = some p := by
  induction l with
  | nil => simp [setPos, lookupPos]
  | cons hd tl ih =>
      obtain ⟨k, q⟩ := hd
      by_cases h : k = s
      · simp [setPos, h, lookupPos]
      · simp [setPos, h, lookupPos, ih]

theorem lookupPos_not_mem {l : List (String × Position)} {s : String}
    (h : s ∉ l.map Prod.fst) : lookupPos l s = none := by
  induction l with
  | nil => rfl
  | cons hd tl ih =>
      obtain ⟨k, q⟩ := hd
      simp only [List.map_cons, List.mem_cons, not_or] at h
      have hk : ¬ k = s := fun hk => h.1 hk.symm
      simp [lookupPos, hk, ih h.2]

theorem lookupPos_erasePos_self {l : List (String × Position)} {s : String}
    (h : (l.map Prod.fst).Nodup) : lookupPos (erasePos l s) s = none := by
  induction l with
  | nil => rfl
  | cons hd tl ih =>
      obtain ⟨k, q⟩ := hd
      simp only [List.map_cons, List.nodup_cons] at h
      by_cases hk : k = s
      · rw [show erasePos ((k, q) :: tl) s = tl from by simp [erasePos, hk]]
        rw [← hk]
        exact lookupPos_not_mem h.1
      · rw [show erasePos ((k, q) :: tl) s = (k, q) :: erasePos tl s from by
          simp [erasePos, hk]]
        rw [show lookupPos ((k, q) :: erasePos tl s) s
            = lookupPos (erasePos tl s) s from by simp [lookupPos, hk]]
        exact ih h.2

theorem mem_of_lookupPos {l : List (String × Position)} {s : String}
    {p : Position} (h : lookupPos l s = some p) : (s, p) ∈ l := by
  induction l with
  | nil => simp [lookupPos] at h
  | cons hd tl ih =>
      obtain ⟨k, q⟩ := hd
      by_cases hk : k = s
      · rw [show lookupPos ((k, q) :: tl) s = some q from by simp [lookupPos, hk]] at h
        have hq : q = p := by injection h
        rw [← hk, ← hq]
        exact List.mem_cons_self _ _
      · rw [show lookupPos ((k, q) :: tl) s = lookupPos tl s from by
          simp [lookupPos, hk]] at h
        exact List.mem_cons_of_mem _ (ih h)

theorem mem_setPos {l : List (String × Position)} {s : String}
    {p : Position} {e : String × Position} (h : e ∈ setPos l s p) :
    e = (s, p) ∨ e ∈ l := by
  induction l with
  | nil =>
      rw [show setPos [] s p = [(s, p)] from rfl] at h
      exact Or.inl (List.mem_singleton.mp h)
  | cons hd tl ih =>
      obtain ⟨k, q⟩ := hd
      by_cases hk : k = s
      · rw [show setPos ((k, q) :: tl) s p = (k, p) :: tl from by
          simp [setPos, hk]] at h
        rcases List.mem_cons.mp h with h1 | h1
        · exact Or.inl (h1.trans (by rw [hk]))
        · exact Or.inr (List.mem_cons_of_mem _ h1)
      · rw [show setPos ((k, q) :: tl) s p = (k, q) :: setPos tl s p from by
          simp [setPos, hk]] at h
        rcases List.mem_cons.mp h with h1 | h1
        · exact Or.inr (by rw [h1]; exact List.mem_cons_self _ _)
        · rcases ih h1 with h2 | h2
          · exact Or.inl h2
          · exact Or.inr (List.mem_cons_of_mem _ h2)

theorem mem_erasePos {l : List (String × Position)} {s : String}
    {e : String × Position} (h : e ∈ erasePos l s) : e ∈ l := by
  induction l with
  | nil =>
      rw [show erasePos [] s = [] from rfl] at h
      exact absurd h (List.not_mem_nil e)
  | cons hd tl ih =>
      obtain ⟨k, q⟩ := hd
      by_cases hk : k = s
      · rw [show erasePos ((k, q) :: tl) s = tl from by simp [erasePos, hk]] at h
        exact List.mem_cons_of_mem _ h
      · rw [show erasePos ((k, q) :: tl) s = (k, q) :: erasePos tl s from by
          simp [erasePos, hk]] at h
        rcases List.mem_cons.mp h with h1 | h1
        · rw [h1]
          exact List.mem_cons_self _ _
        · exact List.mem_cons_of_mem _ (ih h1)

/-! ### Case lemmas for updatePositionFromFill and processOrderFill -/

theorem upff_new {l : List (String × Position)} {t : Trade}
    (h : lookupPos l t.symbol = none) :
    updatePositionFromFill l t =
      (setPos l t.symbol
        { symbol := t.symbol, side := t.side, size := t.size,
          entryPrice := t.price, markPrice := t.price, unrealizedPnl := 0,
          realizedPnl := 0, fees := t.fees, rebates := t.rebates,
          timestamp := t.timestamp }, 0) := by
  simp [updatePositionFromFill, h]

theorem upff_same {l : List (String × Position)} {t : Trade} {q : Position}
    (h : lookupPos l t.symbol = some q) (hside : q.side = t.side)
    (hnz : ¬ q.size + t.size = 0) :
    updatePositionFromFill l t =
      (setPos l t.symbol
        { q with
            size := q.size + t.size
            entryPrice := (q.entryPrice * q.size + t.price * t.size)
              / (q.size + t.size)
            fees := q.fees + t.fees
            rebates := q.rebates + t.rebates }, 0) := by
  simp [updatePositionFromFill, h, hside, hnz]

theorem upff_rev {l : List (String × Position)} {t : Trade} {q : Position}
    (h : lookupPos l t.symbol = some q) (hside : ¬ q.side = t.side)
    (hle : q.size ≤ t.size) (hnz : ¬ t.size - q.size = 0) :
    updatePositionFromFill l t =
      (setPos l t.symbol
        { q with
            side := t.side
            size := t.size - q.size
            entryPrice := t.price
            realizedPnl := q.realizedPnl + calculateRealizedPnl q t.price none
            fees := q.fees + t.fees
            rebates := q.rebates + t.rebates },
        calculateRealizedPnl q t.price none) := by
  simp [updatePositionFromFill, h, hside, hle, hnz]

theorem upff_close {l : List (String × Position)} {t : Trade} {q : Position}
    (h : lookupPos l t.symbol = some q) (hside : ¬ q.side = t.side)
    (heq : q.size = t.size) :
    updatePositionFromFill l t =
      (erasePos l t.symbol, calculateRealizedPnl q t.price none) := by
  simp [updatePositionFromFill, h, hside, heq]

theorem upff_reduce {l : List (String × Position)} {t : Trade} {q : Position}
    (h : lookupPos l t.symbol = some q) (hside : ¬ q.side = t.side)
    (hlt : t.size < q.size) (hnz : ¬ q.size - t.size = 0) :
    updatePositionFromFill l t =
      (setPos l t.symbol
        { q with
            size := q.size - t.size
            realizedPnl := q.realizedPnl
              + calculateRealizedPnl q t.price (some t.size)
            fees := q.fees + t.fees
            rebates := q.rebates + t.rebates },
        calculateRealizedPnl q t.price (some t.size)) := by
  have hle : ¬ q.size ≤ t.size := not_le.mpr hlt
  simp [updatePositionFromFill, h, hside, hle, hnz]

theorem removePendingOrder_positions (st : RiskState) (orderId : String) :
    (removePendingOrder st orderId).positions = st.positions := by
  unfold removePendingOrder updateRiskMetrics
  split <;> rfl

theorem removePendingOrder_portfolio (st : RiskState) (orderId : String) :
    (removePendingOrder st orderId).portfolio = st.portfolio := by
  unfold removePendingOrder updateRiskMetrics
  split <;> rfl

theorem removePendingOrder_emergencyStop (st : RiskState) (orderId : String) :
    (removePendingOrder st orderId).emergencyStop = st.emergencyStop := by
  unfold removePendingOrder updateRiskMetrics
  split <;> rfl

theorem processOrderFill_positions (st : RiskState) (order : Order)
    (fillPrice fillSize : ℚ) (now : ℕ) :
    (processOrderFill st order fillPrice fillSize now).positions =
      (updatePositionFromFill st.positions (mkTrade order fillPrice fillSize now)).1 := by
  unfold processOrderFill
  rw [removePendingOrder_positions]
  rfl

theorem processOrderFill_realizedPnl (st : RiskState) (order : Order)
    (fillPrice fillSize : ℚ) (now : ℕ) :
    (processOrderFill st order fillPrice fillSize now).portfolio.realizedPnl =
      st.portfolio.realizedPnl +
        (updatePositionFromFill st.positions (mkTrade order fillPrice fillSize now)).2 := by
  unfold processOrderFill
  rw [removePendingOrder_portfolio]
  rfl

theorem processOrderFill_emergencyStop (st : RiskState) (order : Order)
    (fillPrice fillSize : ℚ) (now : ℕ) :
    (processOrderFill st order fillPrice fillSize now).emergencyStop =
      st.emergencyStop := by
  unfold processOrderFill
  rw [removePendingOrder_emergencyStop]
  rfl

/-- processOrderFill only touches cash through addRebateEarnings. -/
theorem processOrderFill_cash (st : RiskState) (order : Order)
    (fillPrice fillSize : ℚ) (now : ℕ) :
    (processOrderFill st order fillPrice fillSize now).portfolio.cash =
      st.portfolio.cash + order.rebates := by
  unfold processOrderFill
  rw [removePendingOrder_portfolio]
  rfl

/-- processOrderFill never recomputes the portfolio's total value. -/
theorem processOrderFill_totalValue (st : RiskState) (order : Order)
    (fillPrice fillSize : ℚ) (now : ℕ) :
    (processOrderFill st order fillPrice fillSize now).portfolio.totalValue =
      st.portfolio.totalValue := by
  unfold processOrderFill
  rw [removePendingOrder_portfolio]
  rfl

/-- The drawdown computation of updateRiskMetrics, extracted. -/
theorem updateRiskMetrics_currentDrawdown (st : RiskState) :
    (updateRiskMetrics st).currentDrawdown
      = (if st.portfolio.totalValue < max st.portfolio.totalValue 10000 then
          (max st.portfolio.totalValue 10000 - st.portfolio.totalValue)
            / max st.portfolio.totalValue 10000 * 100
        else 0) := rfl

theorem calculateRealizedPnl_none (q : Position) (x : ℚ) :
    calculateRealizedPnl q x none = specRealizedPnl q.side q.entryPrice x q.size := by
  cases h : q.side <;> simp [calculateRealizedPnl, specRealizedPnl, h]

theorem calculateRealizedPnl_some (q : Position) (x s : ℚ) :
    calculateRealizedPnl q x (some s) = specRealizedPnl q.side q.entryPrice x s := by
  cases h : q.side <;> simp [calculateRealizedPnl, specRealizedPnl, h]

/-! ### Ledger positivity -/

theorem goodLedger_upff {l : List (String × Position)} {t : Trade}
    (hl : goodLedger l) (ht : 0 < t.size) :
    goodLedger (updatePositionFromFill l t).1 := by
  cases hq : lookupPos l t.symbol with
  | none =>
      rw [upff_new hq]
      intro e he
      rcases mem_setPos he with rfl | he'
      · simpa using ht
      · exact hl e he'
  | some q =>
      have hq0 : 0 < q.size := hl (t.symbol, q) (mem_of_lookupPos hq)
      by_cases hside : q.side = t.side
      · have hpos : 0 < q.size + t.size := by linarith
        rw [upff_same hq hside hpos.ne']
        intro e he
        rcases mem_setPos he with rfl | he'
        · simpa using hpos
        · exact hl e he'
      · rcases lt_trichotomy t.size q.size with hlt | heq | hgt
        · have hpos : 0 < q.size - t.size := by linarith
          rw [upff_reduce hq hside hlt hpos.ne']
          intro e he
          rcases mem_setPos he with rfl | he'
          · simpa using hpos
          · exact hl e he'
        · rw [upff_close hq hside heq.symm]
          intro e he
          exact hl e (mem_erasePos he)
        · have hpos : 0 < t.size - q.size := by linarith
          rw [upff_rev hq hside (le_of_lt hgt) hpos.ne']
          intro e he
          rcases mem_setPos he with rfl | he'
          · simpa using hpos
          · exact hl e he'

theorem goodLedger_processOrderFill (st : RiskState) (order : Order)
    (fillPrice fillSize : ℚ) (now : ℕ) (hl : goodLedger st.positions)
    (hs : 0 < fillSize) :
    goodLedger (processOrderFill st order fillPrice fillSize now).positions := by
  rw [processOrderFill_positions]
  exact goodLedger_upff hl hs

theorem goodLedger_applyFills : ∀ (fills : List Fill) (st : RiskState),
    goodLedger st.positions → (∀ f ∈ fills, 0 < f.fillSize) →
    goodLedger (applyFills st fills).positions := by
  intro fills
  induction fills with
  | nil => intro st h _; exact h
  | cons f fs ih =>
      intro st h hall
      exact ih _
        (goodLedger_processOrderFill _ _ _ _ _ h (hall f (List.mem_cons_self f fs)))
        (fun g hg => hall g (List.mem_cons_of_mem f hg))

/-! ### The claims -/

/-- C3: for every finite sequence of processOrderFill calls with
positive fill sizes and prices, every position in the ledger at every
intermediate state (after any prefix of the fills) has nonnegative size,
and no zero-size position is ever present in the ledger (a position that
reaches size zero is removed, so getPosition never returns a zero-size
position). -/
theorem claim_size_invariant (st : RiskState) (fills pre post : List Fill)
    (hgood : goodLedger st.positions)
    (hpos : ∀ f ∈ fills, 0 < f.fillPrice ∧ 0 < f.fillSize)
    (hsplit : fills = pre ++ post) :
    ∀ s p, getPosition (applyFills st pre) s = some p →
      0 ≤ p.size ∧ p.size ≠ 0 := by
  intro s p hp
  have hpre : ∀ f ∈ pre, 0 < f.fillSize := by
    intro f hf
    exact (hpos f (by rw [hsplit]; exact List.mem_append_left post hf)).2
  have hgood' : goodLedger (applyFills st pre).positions :=
    goodLedger_applyFills pre st hgood hpre
  have := hgood' (s, p) (mem_of_lookupPos hp)
  exact ⟨le_of_lt this, this.ne'⟩

/-- C3 witness: a single opening fill from the empty ledger. -/
theorem claim_size_invariant_witness :
    0 ≤ fillBuy1Pos.size ∧ fillBuy1Pos.size ≠ 0 :=
  claim_size_invariant (initialState limits0) [fillBuy1] [fillBuy1] []
    (by intro e he; exact absurd he (List.not_mem_nil e))
    (by intro f hf; rw [List.mem_singleton] at hf; rw [hf]
        exact ⟨by norm_num [fillBuy1], by norm_num [fillBuy1]⟩)
    rfl "ETH" fillBuy1Pos (by decide)

/-- C1: processOrderFill with positive fill price and size: a missing
position opens at the fill price/size; a same-side fill adds the sizes
and size-weight-averages the entry price; an opposite-side fill with
fillSize ≥ oldSize realizes P&L on oldSize, and either reverses to the
flipped side with size fillSize − oldSize and entry fillPrice (strict
case) or removes the position (equal case); an opposite-side fill with
fillSize < oldSize realizes P&L on fillSize, decrements size, and keeps
the entry price; realized P&L follows specRealizedPnl ((exit − entry) ×
closed for long, (entry − exit) × closed for short). -/
theorem claim_fill_position_update (st : RiskState) (order : Order)
    (fillPrice fillSize : ℚ) (now : ℕ)
    (hp : 0 < fillPrice) (hs : 0 < fillSize)
    (hnd : (st.positions.map Prod.fst).Nodup) :
    (getPosition st order.symbol = none →
      getPosition (processOrderFill st order fillPrice fillSize now) order.symbol
          = some { symbol := order.symbol
                   side := order.side
                   size := fillSize
                   entryPrice := fillPrice
                   markPrice := fillPrice
                   unrealizedPnl := 0
                   realizedPnl := 0
                   fees := order.fees
                   rebates := order.rebates
                   timestamp := now } ∧
      (processOrderFill st order fillPrice fillSize now).portfolio.realizedPnl
          = st.portfolio.realizedPnl) ∧
    (∀ q, getPosition st order.symbol = some q → 0 < q.size →
      ((q.side = order.side →
        getPosition (processOrderFill st order fillPrice fillSize now) order.symbol
            = some { q with
                size := q.size + fillSize
                entryPrice := (q.entryPrice * q.size + fillPrice * fillSize)
                  / (q.size + fillSize)
                fees := q.fees + order.fees
                rebates := q.rebates + order.rebates } ∧
        (processOrderFill st order fillPrice fillSize now).portfolio.realizedPnl
            = st.portfolio.realizedPnl) ∧
      (¬ q.side = order.side → q.size ≤ fillSize →
        (processOrderFill st order fillPrice fillSize now).portfolio.realizedPnl
            = st.portfolio.realizedPnl
              + specRealizedPnl q.side q.entryPrice fillPrice q.size ∧
        (q.size < fillSize →
          getPosition (processOrderFill st order fillPrice fillSize now) order.symbol
              = some { q with
                  side := order.side
                  size := fillSize - q.size
                  entryPrice := fillPrice
                  realizedPnl := q.realizedPnl
                    + specRealizedPnl q.side q.entryPrice fillPrice q.size
                  fees := q.fees + order.fees
                  rebates := q.rebates + order.rebates }) ∧
        (q.size = fillSize →
          getPosition (processOrderFill st order fillPrice fillSize now) order.symbol
              = none)) ∧
      (¬ q.side = order.side → fillSize < q.size →
        getPosition (processOrderFill st order fillPrice fillSize now) order.symbol
            = some { q with
                size := q.size - fillSize
                realizedPnl := q.realizedPnl
                  + specRealizedPnl q.side q.entryPrice fillPrice fillSize
                fees := q.fees + order.fees
                rebates := q.rebates + order.rebates } ∧
        (processOrderFill st order fillPrice fillSize now).portfolio.realizedPnl
            = st.portfolio.realizedPnl
              + specRealizedPnl q.side q.entryPrice fillPrice fillSize))) := by
  have hpos := processOrderFill_positions st order fillPrice fillSize now
  have hreal := processOrderFill_realizedPnl st order fillPrice fillSize now
  constructor
  · intro hnone
    have h0 : lookupPos st.positions (mkTrade order fillPrice fillSize now).symbol
        = none := hnone
    rw [upff_new h0] at hpos hreal
    constructor
    · rw [getPosition, hpos]
      exact lookupPos_setPos_self _ _ _
    · simpa using hreal
  · intro q hq hq0
    have h0 : lookupPos st.positions (mkTrade order fillPrice fillSize now).symbol
        = some q := hq
    refine ⟨?_, ?_, ?_⟩
    · intro hside
      have hside' : q.side = (mkTrade order fillPrice fillSize now).side := hside
      have hnz : ¬ q.size + (mkTrade order fillPrice fillSize now).size = 0 := by
        have : 0 < q.size + fillSize := by linarith
        exact this.ne'
      rw [upff_same h0 hside' hnz] at hpos hreal
      constructor
      · rw [getPosition, hpos]
        exact lookupPos_setPos_self _ _ _
      · simpa using hreal
    · intro hside hle
      have hside' : ¬ q.side = (mkTrade order fillPrice fillSize now).side := hside
      rcases lt_or_eq_of_le hle with hlt | heq
      · have hnz : ¬ (mkTrade order fillPrice fillSize now).size - q.size = 0 := by
          have : (0 : ℚ) < fillSize - q.size := by linarith
          exact this.ne'
        have hle' : q.size ≤ (mkTrade order fillPrice fillSize now).size := hle
        rw [upff_rev h0 hside' hle' hnz] at hpos hreal
        refine ⟨?_, ?_, ?_⟩
        · rw [calculateRealizedPnl_none] at hreal
          simpa using hreal
        · intro _
          rw [getPosition, hpos, calculateRealizedPnl_none]
          exact lookupPos_setPos_self _ _ _
        · intro heq'
          exact absurd heq' (ne_of_lt hlt)
      · have heq' : q.size = (mkTrade order fillPrice fillSize now).size := heq
        rw [upff_close h0 hside' heq'] at hpos hreal
        refine ⟨?_, ?_, ?_⟩
        · rw [calculateRealizedPnl_none] at hreal
          simpa using hreal
        · intro hlt
          exact absurd heq (ne_of_lt hlt)
        · intro _
          rw [getPosition, hpos]
          exact lookupPos_erasePos_self hnd
    · intro hside hlt
      have hside' : ¬ q.side = (mkTrade order fillPrice fillSize now).side := hside
      have hlt' : (mkTrade order fillPrice fillSize now).size < q.size := hlt
      have hnz : ¬ q.size - (mkTrade order fillPrice fillSize now).size = 0 := by
        have : (0 : ℚ) < q.size - fillSize := by linarith
        exact this.ne'
      rw [upff_reduce h0 hside' hlt' hnz] at hpos hreal
      constructor
      · rw [getPosition, hpos, calculateRealizedPnl_some]
        exact lookupPos_setPos_self _ _ _
      · rw [calculateRealizedPnl_some] at hreal
        simpa using hreal

/-- C1 witness: opening a 1 ETH long at 2000 from the empty ledger. -/
theorem claim_fill_position_update_witness :
    getPosition (processOrderFill (initialState limits0) buyOrder 2000 1 0)
        buyOrder.symbol
      = some { symbol := buyOrder.symbol
               side := buyOrder.side
               size := 1
               entryPrice := 2000
               markPrice := 2000
               unrealizedPnl := 0
               realizedPnl := 0
               fees := buyOrder.fees
               rebates := buyOrder.rebates
               timestamp := 0 } ∧
    (processOrderFill (initialState limits0) buyOrder 2000 1 0).portfolio.realizedPnl
      = (initialState limits0).portfolio.realizedPnl :=
  (claim_fill_position_update (initialState limits0) buyOrder 2000 1 0
    (by norm_num) (by norm_num) (by decide)).1 (by decide)

/-- C2: canTrade returns false exactly when a denial condition of the
spec holds (emergency stop; dailyLoss ≥ maxDailyLoss; drawdown ≥
maxDrawdownPercent; the symbol's position notional fraction strictly
above the concentration limit; open positions ≥ maxOpenPositions), and
in particular it denies in Scenario B (daily loss 500 of 500) and in
Scenario D (ETH notional 3500 of 10000 against a 30% limit). -/
theorem claim_canTrade_gate :
    (∀ (st : RiskState) (symbol : String), 0 ≤ st.dailyLoss →
      (canTrade st symbol = false ↔ specTradeDenied st symbol)) ∧
    canTrade scenarioB "ETH" = false ∧ canTrade scenarioD "ETH" = false := by
  refine ⟨?_,
    by unfold canTrade
       norm_num [scenarioB, initialState, limits0],
    by unfold canTrade
       norm_num [scenarioD, initialState, limits0, initializePortfolio,
         lookupPos, ethPos3500]⟩
  intro st symbol hdl
  unfold canTrade specTradeDenied
  simp only [abs_of_nonneg hdl]
  split_ifs with h1 h2 h3 h4 h5
  · exact iff_of_true rfl (Or.inl h1)
  · exact iff_of_true rfl (Or.inr (Or.inl h2))
  · exact iff_of_true rfl (Or.inr (Or.inr (Or.inl h3)))
  · cases hq : lookupPos st.positions symbol with
    | none =>
        rw [hq] at h4
        exact absurd h4 (by simp)
    | some p =>
        rw [hq] at h4
        have h4' := of_decide_eq_true h4
        refine iff_of_true rfl
          (Or.inr (Or.inr (Or.inr (Or.inl ⟨p, hq, ?_⟩))))
        exact (mul_lt_mul_right (by norm_num : (0 : ℚ) < 100)).mp h4'
  · exact iff_of_true rfl (Or.inr (Or.inr (Or.inr (Or.inr h5))))
  · refine iff_of_false (by simp) ?_
    rintro (h | h | h | ⟨p, hp, hlt⟩ | h)
    · exact h1 h
    · exact h2 h
    · exact h3 h
    · apply h4
      rw [show lookupPos st.positions symbol = some p from hp]
      exact decide_eq_true
        ((mul_lt_mul_right (by norm_num : (0 : ℚ) < 100)).mpr hlt)
    · exact h5 h

/-- C2 witness: the gate equivalence instantiated at Scenario D. -/
theorem claim_canTrade_gate_witness :
    canTrade scenarioD "ETH" = false ↔ specTradeDenied scenarioD "ETH" :=
  claim_canTrade_gate.1 scenarioD "ETH"
    (by norm_num [scenarioD, initialState])

/-- The first Scenario-A fill opens LONG 1 ETH @2000. -/
theorem firstFill_positions :
    (processOrderFill (initialState limits0) buyOrder 2000 1 0).positions
      = [("ETH", fillBuy1Pos)] := by
  have h0 : lookupPos (initialState limits0).positions
      (mkTrade buyOrder 2000 1 0).symbol = none := rfl
  have h1 := processOrderFill_positions (initialState limits0) buyOrder 2000 1 0
  rw [upff_new h0] at h1
  rw [h1]
  norm_num [setPos, mkTrade, buyOrder, fillBuy1Pos, initialState]

/-- Opening a position realizes no P&L. -/
theorem firstFill_realizedPnl :
    (processOrderFill (initialState limits0)
        buyOrder 2000 1 0).portfolio.realizedPnl = 0 := by
  have h0 : lookupPos (initialState limits0).positions
      (mkTrade buyOrder 2000 1 0).symbol = none := rfl
  have h1 := processOrderFill_realizedPnl (initialState limits0) buyOrder 2000 1 0
  rw [upff_new h0] at h1
  rw [h1]
  norm_num [initialState, initializePortfolio]

/-- The Scenario-A end state: the reversal position and the realized
P&L the code actually credits. -/
theorem scenarioA_state (fillPrice : ℚ) :
    (scenarioA fillPrice).positions = [("ETH", scenarioAPos fillPrice)] ∧
    (scenarioA fillPrice).portfolio.realizedPnl = (fillPrice - 2000) * 1 := by
  have hpos : (scenarioA fillPrice).positions
      = (updatePositionFromFill
          (processOrderFill (initialState limits0) buyOrder 2000 1 0).positions
          (mkTrade sellOrder fillPrice (3 / 2) 1)).1 :=
    processOrderFill_positions _ _ _ _ _
  have hreal : (scenarioA fillPrice).portfolio.realizedPnl
      = (processOrderFill (initialState limits0)
          buyOrder 2000 1 0).portfolio.realizedPnl
        + (updatePositionFromFill
            (processOrderFill (initialState limits0) buyOrder 2000 1 0).positions
            (mkTrade sellOrder fillPrice (3 / 2) 1)).2 :=
    processOrderFill_realizedPnl _ _ _ _ _
  rw [firstFill_positions] at hpos hreal
  have hq : lookupPos [("ETH", fillBuy1Pos)]
      (mkTrade sellOrder fillPrice (3 / 2) 1).symbol = some fillBuy1Pos := rfl
  have hside : ¬ fillBuy1Pos.side = (mkTrade sellOrder fillPrice (3 / 2) 1).side := by
    simp [fillBuy1Pos, mkTrade, sellOrder]
  have hle : fillBuy1Pos.size ≤ (mkTrade sellOrder fillPrice (3 / 2) 1).size := by
    norm_num [fillBuy1Pos, mkTrade]
  have hnz : ¬ (mkTrade sellOrder fillPrice (3 / 2) 1).size - fillBuy1Pos.size = 0 := by
    norm_num [fillBuy1Pos, mkTrade]
  rw [upff_rev hq hside hle hnz, calculateRealizedPnl_none] at hpos hreal
  constructor
  · rw [hpos]
    norm_num [setPos, mkTrade, sellOrder, fillBuy1Pos, scenarioAPos, specRealizedPnl]
  · rw [hreal, firstFill_realizedPnl]
    norm_num [specRealizedPnl, fillBuy1Pos, mkTrade, sellOrder]

/-- C4 counterexample: with fillPrice 1900 the code credits realized
P&L (fillPrice − 2000) × 1 = −100 to the portfolio, not the claimed
(2000 − fillPrice) × 1 = +100. -/
theorem claim_scenarioA_pnl_counterexample :
    (scenarioA 1900).portfolio.realizedPnl = -100 ∧
    ((2000 : ℚ) - 1900) * 1 = 100 ∧
    (scenarioA 1900).portfolio.realizedPnl ≠ ((2000 : ℚ) - 1900) * 1 := by
  have h := (scenarioA_state 1900).2
  refine ⟨by rw [h]; norm_num, by norm_num, by rw [h]; norm_num⟩

/-- C4 (as amended): the opposing 1.5 ETH SELL reverses the 1 ETH long
@2000 to SHORT 0.5 ETH at the fill price, and the realized P&L credited
to the portfolio is (fillPrice − 2000) × 1 — the long's exit-minus-entry
P&L, with the opposite sign to the spec's scenario figure. -/
theorem claim_scenarioA_reversal (fillPrice : ℚ) (h : 0 < fillPrice) :
    getPosition (scenarioA fillPrice) "ETH" = some (scenarioAPos fillPrice) ∧
    (scenarioA fillPrice).portfolio.realizedPnl = (fillPrice - 2000) * 1 := by
  refine ⟨?_, (scenarioA_state fillPrice).2⟩
  show lookupPos (scenarioA fillPrice).positions "ETH" = some (scenarioAPos fillPrice)
  rw [(scenarioA_state fillPrice).1]
  simp [lookupPos]

/-- C4 witness: the amended claim at fill price 1800. -/
theorem claim_scenarioA_reversal_witness :
    (scenarioA 1800).portfolio.realizedPnl = ((1800 : ℚ) - 2000) * 1 :=
  (claim_scenarioA_reversal 1800 (by norm_num)).2

/-- C7 counterexample: with portfolio value 11000 after a history that
peaked at 12000, the running-historical-peak drawdown of the claim is
25/3 %, but the code (whose getHistoricalPeak is max(current, 10000))
computes 0. -/
theorem claim_drawdown_peak_counterexample :
    (updateRiskMetrics st11000).currentDrawdown = 0 ∧
    specCurrentDrawdown [10000, 12000, 11000] 11000 = 25 / 3 ∧
    (updateRiskMetrics st11000).currentDrawdown
      ≠ specCurrentDrawdown [10000, 12000, 11000] 11000 := by
  have hcode : (updateRiskMetrics st11000).currentDrawdown = 0 := by
    rw [updateRiskMetrics_currentDrawdown]
    have htv : st11000.portfolio.totalValue = 11000 := rfl
    rw [htv, max_eq_left (by norm_num : (10000 : ℚ) ≤ 11000)]
    norm_num
  have hpk : specRunningPeak [10000, 12000, 11000] = (12000 : ℚ) := by
    unfold specRunningPeak
    simp only [List.foldl_cons, List.foldl_nil]
    rw [max_eq_right (by norm_num : (0 : ℚ) ≤ 10000),
        max_eq_right (by norm_num : (10000 : ℚ) ≤ 12000),
        max_eq_left (by norm_num : (11000 : ℚ) ≤ 12000)]
  have hspec : specCurrentDrawdown [10000, 12000, 11000] 11000 = 25 / 3 := by
    unfold specCurrentDrawdown
    rw [hpk,
        max_eq_left (by norm_num :
          (0 : ℚ) ≤ ((12000 : ℚ) - 11000) / 12000 * 100)]
    norm_num
  refine ⟨hcode, hspec, ?_⟩
  rw [hcode, hspec]
  norm_num

/-- C7 (as amended): the risk cycle computes drawdown =
(peak − current)/peak × 100 floored at 0, but with peak =
max(current total value, initial capital 10000) — not the running
historical maximum of portfolio value. -/
theorem claim_drawdown_formula (st : RiskState) :
    (updateRiskMetrics st).currentDrawdown
      = specCurrentDrawdown [st.portfolio.totalValue, 10000]
          st.portfolio.totalValue := by
  have hpeak : specRunningPeak [st.portfolio.totalValue, 10000]
      = max st.portfolio.totalValue 10000 := by
    show max (max 0 st.portfolio.totalValue) 10000 = _
    rw [max_comm 0 _, max_assoc]
    norm_num
  have hcode : (updateRiskMetrics st).currentDrawdown
      = (if st.portfolio.totalValue < max st.portfolio.totalValue 10000 then
          (max st.portfolio.totalValue 10000 - st.portfolio.totalValue)
            / max st.portfolio.totalValue 10000 * 100
        else 0) := rfl
  rw [hcode]
  unfold specCurrentDrawdown
  rw [hpeak]
  by_cases hlt : st.portfolio.totalValue < max st.portfolio.totalValue 10000
  · rw [if_pos hlt]
    have hpk0 : (0 : ℚ) < max st.portfolio.totalValue 10000 :=
      lt_of_lt_of_le (by norm_num) (le_max_right _ _)
    have hnn : 0 ≤ (max st.portfolio.totalValue 10000 - st.portfolio.totalValue)
        / max st.portfolio.totalValue 10000 * 100 := by
      apply mul_nonneg
      · exact div_nonneg (by linarith) (le_of_lt hpk0)
      · norm_num
    exact (max_eq_left hnn).symm
  · rw [if_neg hlt]
    have hge : max st.portfolio.totalValue 10000 ≤ st.portfolio.totalValue :=
      not_lt.mp hlt
    have heq : max st.portfolio.totalValue 10000 = st.portfolio.totalValue :=
      le_antisymm hge (le_max_left _ _)
    rw [heq]
    simp

/-- C8 counterexample: after a single fill opening 1 ETH at 2000,
processOrderFill has not recomputed the portfolio: totalValue is still
10000 while cash + Σ notional + Σ unrealized = 12000. -/
theorem claim_portfolio_fill_counterexample :
    ¬ portfolioInvariant stFill ∧
    stFill.portfolio.totalValue = 10000 ∧
    stFill.portfolio.cash + positionsNotional stFill.positions
        + positionsUnrealized stFill.positions = 12000 := by
  have htv : stFill.portfolio.totalValue = 10000 := by
    show (processOrderFill (initialState limits0)
        buyOrder 2000 1 0).portfolio.totalValue = 10000
    rw [processOrderFill_totalValue]
    rfl
  have hcash : stFill.portfolio.cash = 10000 := by
    show (processOrderFill (initialState limits0)
        buyOrder 2000 1 0).portfolio.cash = 10000
    rw [processOrderFill_cash]
    norm_num [initialState, initializePortfolio, buyOrder]
  have hps : stFill.positions = [("ETH", fillBuy1Pos)] := firstFill_positions
  have hsum : stFill.portfolio.cash + positionsNotional stFill.positions
      + positionsUnrealized stFill.positions = 12000 := by
    rw [hcash, hps]
    norm_num [positionsNotional, positionsUnrealized, fillBuy1Pos]
  refine ⟨?_, htv, hsum⟩
  intro hinv
  have hv := hinv.1
  rw [htv, hsum] at hv
  norm_num at hv

/-- C8 (as amended): the portfolio identities (totalValue = cash +
Σ notional + Σ unrealized; netPnl = realized + unrealized + rebates −
fees) hold after every updatePosition call, which recomputes the
portfolio; processOrderFill does not recompute totalValue/unrealizedPnl,
so the totalValue identity can fail after a fill (see the
counterexample). -/
theorem claim_portfolio_recompute (st : RiskState) (position : Position) :
    portfolioInvariant (updatePosition st position) := by
  constructor <;> rfl

/-- C10: an EMERGENCY-level alert sets the emergency latch in the same
emitRiskAlert step; while the latch is set canTrade denies every symbol;
a second EMERGENCY alert while latched emits no emergencyStop event; the
latch survives alerts, fills and position updates, and only
resetEmergencyStop clears it. -/
theorem claim_emergency_latch :
    (∀ st : RiskState,
      ((emitRiskAlert st AlertLevel.emergency).1).emergencyStop = true) ∧
    (∀ (st : RiskState) (symbol : String), st.emergencyStop = true →
      canTrade st symbol = false) ∧
    (∀ st : RiskState, st.emergencyStop = true →
      (emitRiskAlert st AlertLevel.emergency).2 = false) ∧
    (∀ (st : RiskState) (level : AlertLevel), st.emergencyStop = true →
      ((emitRiskAlert st level).1).emergencyStop = true) ∧
    (∀ (st : RiskState) (order : Order) (fillPrice fillSize : ℚ) (now : ℕ),
      st.emergencyStop = true →
      (processOrderFill st order fillPrice fillSize now).emergencyStop = true) ∧
    (∀ (st : RiskState) (position : Position), st.emergencyStop = true →
      (updatePosition st position).emergencyStop = true) ∧
    (∀ st : RiskState, (resetEmergencyStop st).emergencyStop = false) := by
  refine ⟨?_, ?_, ?_, ?_, ?_, ?_, ?_⟩
  · intro st
    show (triggerEmergencyStop st).1.emergencyStop = true
    unfold triggerEmergencyStop
    split_ifs with h
    · exact h
    · rfl
  · intro st symbol h
    simp [canTrade, h]
  · intro st h
    simp [emitRiskAlert, triggerEmergencyStop, h]
  · intro st level h
    cases level <;> simp [emitRiskAlert, triggerEmergencyStop, h]
  · intro st order fillPrice fillSize now h
    rw [processOrderFill_emergencyStop]
    exact h
  · intro st position h
    exact (rfl : (updatePosition st position).emergencyStop
      = st.emergencyStop).trans h
  · intro st
    rfl

/-- C10 witness: an EMERGENCY alert on an already-latched state emits no
second emergencyStop event. -/
theorem claim_emergency_latch_witness :
    (emitRiskAlert stStop AlertLevel.emergency).2 = false :=
  claim_emergency_latch.2.2.1 stStop rfl

/-! ### Strategy lemmas -/

theorem updateQuotes_activeOrders_cases (cfg : OneSidedQuotingConfig)
    (risk : RiskState) (st : StratState) (symbol newOrderId : String)
    (placeOk : Bool) :
    (updateQuotes cfg risk st symbol newOrderId placeOk).activeOrders symbol
        = st.activeOrders symbol ∨
    (updateQuotes cfg risk st symbol newOrderId placeOk).activeOrders symbol
        = [] ∨
    (updateQuotes cfg risk st symbol newOrderId placeOk).activeOrders symbol
        = [newOrderId] := by
  unfold updateQuotes
  cases hs : st.latestSignal symbol with
  | none => simp
  | some signal =>
    cases hm : st.marketData symbol with
    | none => simp
    | some md =>
      cases ho : st.orderBooks symbol with
      | none => simp
      | some ob =>
        by_cases hct : canTrade risk symbol = true
        · by_cases hd : (generateTradingDecision cfg risk st.positions
              st.marketData signal md ob).action = DecisionAction.hold
          · right; left
            simp [hct, hd, cancelSymbolOrders]
          · by_cases hp : placeOk = true
            · right; right
              simp [hct, hd, hp, placeQuote, cancelSymbolOrders]
            · right; left
              simp [hct, hd, hp, placeQuote, cancelSymbolOrders]
        · left
          simp [hct]

theorem updateQuotes_activeOrders_other (cfg : OneSidedQuotingConfig)
    (risk : RiskState) (st : StratState) (symbol newOrderId : String)
    (placeOk : Bool) {s : String} (hns : ¬ s = symbol) :
    (updateQuotes cfg risk st symbol newOrderId placeOk).activeOrders s
        = st.activeOrders s := by
  unfold updateQuotes
  cases hs : st.latestSignal symbol with
  | none => simp
  | some signal =>
    cases hm : st.marketData symbol with
    | none => simp
    | some md =>
      cases ho : st.orderBooks symbol with
      | none => simp
      | some ob =>
        by_cases hct : canTrade risk symbol = true
        · by_cases hd : (generateTradingDecision cfg risk st.positions
              st.marketData signal md ob).action = DecisionAction.hold
          · simp [hct, hd, cancelSymbolOrders, hns]
          · by_cases hp : placeOk = true
            · simp [hct, hd, hp, placeQuote, cancelSymbolOrders, hns]
            · simp [hct, hd, hp, placeQuote, cancelSymbolOrders, hns]
        · simp [hct]

/-- C5: over any sequence of updateQuotes cycles the strategy holds at
most one active order per symbol, and a single cycle either leaves a
symbol's active set untouched, empties it (cancel with no requote), or
replaces it with exactly the one new order — the previous orders are
always dropped (cancellation issued and assumed, also when a cancel
call fails) before any new order is recorded, so duplicate same-symbol
orders never arise. -/
theorem claim_one_active_order :
    (∀ (cfg : OneSidedQuotingConfig) (st : StratState)
      (events : List QuoteEvent), oneOrderPerSymbol st →
      oneOrderPerSymbol (runQuoteUpdates cfg st events)) ∧
    (∀ (cfg : OneSidedQuotingConfig) (risk : RiskState) (st : StratState)
      (symbol newOrderId : String) (placeOk : Bool),
      (updateQuotes cfg risk st symbol newOrderId placeOk).activeOrders symbol
          = st.activeOrders symbol ∨
      (updateQuotes cfg risk st symbol newOrderId placeOk).activeOrders symbol
          = [] ∨
      (updateQuotes cfg risk st symbol newOrderId placeOk).activeOrders symbol
          = [newOrderId]) := by
  constructor
  · intro cfg st events
    induction events generalizing st with
    | nil => intro h; exact h
    | cons e es ih =>
        intro h
        apply ih
        intro s
        by_cases hs : s = e.symbol
        · rcases updateQuotes_activeOrders_cases cfg e.risk st e.symbol
              e.newOrderId e.placeOk with h1 | h1 | h1
          · rw [hs, h1]; exact h e.symbol
          · rw [hs, h1]; simp
          · rw [hs, h1]; simp
        · rw [updateQuotes_activeOrders_other cfg e.risk st e.symbol
              e.newOrderId e.placeOk hs]
          exact h s
  · exact updateQuotes_activeOrders_cases

/-- C5 witness: one quoting cycle from an idle strategy. -/
theorem claim_one_active_order_witness :
    ((runQuoteUpdates cfgE stIdle
        [{ risk := initialState limits0, symbol := "ETH", newOrderId := "w1",
           placeOk := true }]).activeOrders "ETH").length ≤ 1 :=
  claim_one_active_order.1 cfgE stIdle
    [{ risk := initialState limits0, symbol := "ETH", newOrderId := "w1",
       placeOk := true }]
    (fun s => by simp [stIdle]) "ETH"

/-- C6 counterexample: while QUOTING (order q1 resting) with a signal
present, a risk-gate denial (emergency stop) makes updateQuotes return
before cancelling: the resting order stays, the symbol is not left with
zero resting orders. -/
theorem claim_risk_denial_retracts_counterexample :
    (stQuoting sigE).activeOrders "ETH" = ["q1"] ∧
    canTrade stStop "ETH" = false ∧
    (updateQuotes cfgE stStop (stQuoting sigE) "ETH" "w3" true).activeOrders
        "ETH" = ["q1"] ∧
    (["q1"] : List String) ≠ [] := by
  have hct : canTrade stStop "ETH" = false := by
    simp [canTrade, stStop, initialState]
  refine ⟨by simp [stQuoting], hct, ?_, by simp⟩
  unfold updateQuotes
  have hs : (stQuoting sigE).latestSignal "ETH" = some sigE := by simp [stQuoting]
  have hm : (stQuoting sigE).marketData "ETH" = some mdE := by simp [stQuoting]
  have ho : (stQuoting sigE).orderBooks "ETH" = some obE := by simp [stQuoting]
  simp [hs, hm, ho, hct, stQuoting]

/-- C6 (as amended): while QUOTING, a NEUTRAL signal (with the risk
gate still allowing) makes the next quote update cancel the resting
order and place nothing, leaving zero resting orders; but when
canTrade(symbol) denies, updateQuotes returns before the cancel, so the
resting order is NOT retracted by the quote update (see the
counterexample; retraction on risk trouble happens only through the
EMERGENCY alert handler). -/
theorem claim_neutral_retracts (cfg : OneSidedQuotingConfig)
    (risk : RiskState) (st : StratState) (symbol newOrderId : String)
    (placeOk : Bool) (signal : Signal) (md : MarketData) (ob : OrderBook)
    (hsig : st.latestSignal symbol = some signal)
    (hmd : st.marketData symbol = some md)
    (hob : st.orderBooks symbol = some ob)
    (hdir : signal.direction = Direction.neutral)
    (hct : canTrade risk symbol = true) :
    (updateQuotes cfg risk st symbol newOrderId placeOk).activeOrders
        symbol = [] := by
  unfold updateQuotes
  have hdec : (generateTradingDecision cfg risk st.positions st.marketData
      signal md ob).action = DecisionAction.hold := by
    simp [generateTradingDecision, hdir]
  simp [hsig, hmd, hob, hct, hdec, cancelSymbolOrders]

/-- C6 witness: a NEUTRAL signal while QUOTING on ETH with a healthy
risk state cancels the resting order q1 and places nothing. -/
theorem claim_neutral_retracts_witness :
    (updateQuotes cfgE (initialState limits0) (stQuoting sigNeutral)
        "ETH" "w2" true).activeOrders "ETH" = [] :=
  claim_neutral_retracts cfgE (initialState limits0) (stQuoting sigNeutral)
    "ETH" "w2" true sigNeutral mdE obE
    (by simp [stQuoting]) (by simp [stQuoting]) (by simp [stQuoting]) rfl
    (by unfold canTrade
        norm_num [initialState, limits0, lookupPos])

/-- C9: the BUY quote price is the best bid minus
spread × min(aggressiveness + confidence/2, 1) × 0.5, clamped to at most
mid − 0.1 × spread, rounded half-up to the tick (symmetrically for
SELL, clamped to at least mid + 0.1 × spread); and in Scenario E (best
bid 1999.5, spread 1, total aggressiveness 0.4, tick 0.01) the price is
1999.30 ≤ mid − 0.1 × spread. -/
theorem claim_quote_price (cfg : OneSidedQuotingConfig) (signal : Signal)
    (md : MarketData) (ob : OrderBook)
    (hnn : 0 ≤ cfg.aggressivenessFactor + signal.confidence * (1 / 2)) :
    (calculateQuotePrice cfg signal md ob OrderSide.buy
        = specQuotePriceBuy cfg.aggressivenessFactor signal.confidence
            (bestBidOf ob md) (md.ask - md.bid) md.midPrice
            (getTickSize signal.symbol) ∧
      calculateQuotePrice cfg signal md ob OrderSide.sell
        = specQuotePriceSell cfg.aggressivenessFactor signal.confidence
            (bestAskOf ob md) (md.ask - md.bid) md.midPrice
            (getTickSize signal.symbol)) ∧
    calculateQuotePrice cfgE sigE mdE obE OrderSide.buy = 19993 / 10 ∧
    (19993 / 10 : ℚ) ≤ mdE.midPrice - (mdE.ask - mdE.bid) * (1 / 10) := by
  refine ⟨⟨?_, ?_⟩, ?_, by norm_num [mdE]⟩
  · simp only [calculateQuotePrice, specQuotePriceBuy, clampedTo]
    rw [max_eq_left hnn]
  · simp only [calculateQuotePrice, specQuotePriceSell, clampedTo]
    rw [max_eq_left hnn]
  · norm_num [calculateQuotePrice, clampedTo, bestBidOf, getTickSize,
      roundToTickSize, decimalRound, cfgE, sigE, mdE, obE, min_def, max_def]

/-- C9 witness: the Scenario-E price. -/
theorem claim_quote_price_witness :
    calculateQuotePrice cfgE sigE mdE obE OrderSide.buy = 19993 / 10 :=
  (claim_quote_price cfgE sigE mdE obE
    (by norm_num [cfgE, sigE])).2.1

end HyperLiquid
